import Mathlib

/-!
Shallow embedding of the spec-driven code-generation workflow
(`spec_workflow.py` and the task parsing utilities of `spec_templates.py`),
together with theorems settling the frozen specification claims.

Python `str` values are modelled as Lean `String` (a wrapper around
`List Char`); all scanning utilities work on the underlying character
lists so that every definition evaluates by kernel reduction.  Machine
text is ASCII in all concrete inputs, so `Char.isAlphanum` agrees with
Python's `\w` on everything we evaluate.
-/

namespace SpecGen

/-! ## Python string primitives -/

/-- Python whitespace class `\s` (for `str` restricted to ASCII). -/
def pySpace (c : Char) : Bool :=
  c = ' ' || c = '\t' || c = '\n' || c = '\r' || c = '\x0b' || c = '\x0c'

/-- Python word-character class `\w` (ASCII fragment). -/
def pyWordChar (c : Char) : Bool := c.isAlphanum || c = '_'

/-- Character class `[\.\w-]` used by both fallback regexes in
`parse_task_items`. -/
def fileChar (c : Char) : Bool := pyWordChar c || c = '.' || c = '-'

/-- The backtick character (written via its code point). -/
def backtickChar : Char := Char.ofNat 96

/-- `leadsWith p l` is true when `p` is an initial run of `l`
(Python `str.startswith` on the underlying characters). -/
def leadsWith : List Char → List Char → Bool
  | [], _ => true
  | _ :: _, [] => false
  | p :: ps, c :: cs => p = c && leadsWith ps cs

/-- Python `s.startswith(pre)`. -/
def strLeads (s pre : String) : Bool := leadsWith pre.data s.data

/-- Python `s.endswith(suf)`. -/
def strEnds (s suf : String) : Bool := leadsWith suf.data.reverse s.data.reverse

/-- Python `str.strip()` on a character list. -/
def pyStripChars (l : List Char) : List Char :=
  ((l.dropWhile pySpace).reverse.dropWhile pySpace).reverse

/-- Python `str.strip()`. -/
def pyStrip (s : String) : String := ⟨pyStripChars s.data⟩

/-- Python `str.lower()` (ASCII fragment). -/
def lowerStr (s : String) : String := ⟨s.data.map Char.toLower⟩

/-- Split a character list at every occurrence of `sep`
(Python `str.split(sep)` for a one-character separator: the result is
never empty and an empty input yields one empty piece). -/
def splitOnChar (sep : Char) : List Char → List (List Char)
  | [] => [[]]
  | c :: r =>
    match splitOnChar sep r with
    | [] => [[c]]
    | h :: t => if c = sep then [] :: h :: t else (c :: h) :: t

/-- Python `text.split("\n")`. -/
def splitLines (s : String) : List String := (splitOnChar '\n' s.data).map String.mk

/-- Python `sep.join(pieces)` on character lists. -/
def joinWithChars (sep : List Char) : List (List Char) → List Char
  | [] => []
  | [x] => x
  | x :: y :: t => x ++ sep ++ joinWithChars sep (y :: t)

/-- Python `sep.join(pieces)`. -/
def joinWithStr (sep : String) (pieces : List String) : String :=
  ⟨joinWithChars sep.data (pieces.map String.data)⟩

/-- Python `"\n".join(lines)`. -/
def joinNl (lines : List String) : String := joinWithStr "\n" lines

/-- Fuel-driven core of Python `str.count` for a non-empty pattern:
non-overlapping left-to-right occurrence count. -/
def countSubFuel (pat : List Char) : Nat → List Char → Nat
  | _, [] => 0
  | 0, _ => 0
  | f + 1, c :: r =>
    if leadsWith pat (c :: r) then 1 + countSubFuel pat f (List.drop (pat.length - 1) r)
    else countSubFuel pat f r

/-- Python `s.count(pat)` for a non-empty pattern. -/
def countSub (s pat : String) : Nat := countSubFuel pat.data s.data.length s.data

/-- The literal task counter used twice in `spec_workflow.py`:
`tasks.count('- [ ] T')`. -/
def taskCount (tasks : String) : Nat := countSub tasks "- [ ] T"

/-! ## `pathlib` paths

A pure model of the POSIX `pathlib` fragment the workflow uses: a path
is a flag for absoluteness plus the normalized component list (empty
pieces and single dots dropped, `..` kept — exactly what
`PurePosixPath` stores in `parts` minus the root marker).  The POSIX
double-slash root (`//x`) is deliberately collapsed into the ordinary
root; no claim concerns it. -/

structure PyPath where
  isAbs : Bool
  parts : List String
deriving DecidableEq, Repr

/-- `Path(s)` — parse a string into a path. -/
def mkPath (s : String) : PyPath :=
  ⟨strLeads s "/",
   ((splitOnChar '/' s.data).map String.mk).filter (fun c => c ≠ "" && c ≠ ".")⟩

/-- `p.parent`. -/
def pyParent (p : PyPath) : PyPath := ⟨p.isAbs, p.parts.dropLast⟩

/-- `p.name` (`""` for the empty relative path and for the root). -/
def pyNameOfPath (p : PyPath) : String := (p.parts.getLast?).getD ""

/-- `PurePosixPath(s).name` for a string. -/
def pyStrName (s : String) : String := pyNameOfPath (mkPath s)

/-- `p / q`: an absolute right operand replaces the left operand. -/
def pathJoin (p q : PyPath) : PyPath :=
  if q.isAbs then q else ⟨p.isAbs, p.parts ++ q.parts⟩

/-- `p / s` for a string segment (parsed like a constructor argument). -/
def joinName (p : PyPath) (s : String) : PyPath := pathJoin p (mkPath s)

/-- `str(p)` for a POSIX path. -/
def pathStr (p : PyPath) : String :=
  if p.isAbs then "/" ++ joinWithStr "/" p.parts
  else if p.parts = [] then "." else joinWithStr "/" p.parts

/-- `p` lies inside the directory `base` (read off the un-normalized
component lists, the way `pathlib` compares paths). -/
def pathStarts (p base : PyPath) : Bool :=
  p.isAbs == base.isAbs && base.parts == p.parts.take base.parts.length

/-- `Path(file_path).suffix.lower()` as used by `_infer_language`:
the last-dot extension of the final component, empty for hidden files
and for names ending in a dot. -/
def pySuffix (s : String) : String :=
  let n := (pyStrName s).data
  let r := n.reverse
  let after := r.takeWhile (fun c => c ≠ '.')
  let k := after.length
  if k = r.length then ""
  else if k = 0 then ""
  else if k + 1 = r.length then ""
  else String.mk ('.' :: after.reverse)

/-! ## `_infer_language` (`spec_templates.py`) -/

/-- The extension-to-language table `_FILE_EXTENSION_TO_LANGUAGE`. -/
def langMap : List (String × String) :=
  [(".py", "python"), (".ts", "typescript"), (".js", "javascript"),
   (".java", "java"), (".toml", "toml"), (".yaml", "yaml"), (".yml", "yaml"),
   (".json", "json"), (".md", "markdown"), (".sh", "bash"), (".env", "bash"),
   (".ini", "ini"), (".cfg", "ini"), (".dockerfile", "dockerfile")]

/-- `_infer_language(file_path)`. -/
def inferLanguage (filePath : String) : String :=
  let ext := lowerStr (pySuffix filePath)
  if lowerStr (pyStrName filePath) = "dockerfile" then "dockerfile"
  else (((langMap.find? (fun kv => kv.1 == ext)).map Prod.snd).getD "")

/-! ## The three `re.findall` scanners of `parse_task_items`

Each scanner is a direct operational model of CPython `re.findall`
semantics for its fixed pattern: scan left to right, attempt a greedy
backtracking match at each position, on success emit the match (or its
single capture group) and resume after it, on failure advance one
character.  Fuel equal to the input length bounds the recursion; every
step consumes at least one character, so the fuel never runs out. -/

/-- ``re.findall(r"`([^`]+)`", s)`` — backtick-quoted spans. -/
def backtickAux : Nat → List Char → List String
  | 0, _ => []
  | _, [] => []
  | f + 1, c :: r =>
    if c = backtickChar then
      let content := r.takeWhile (fun x => x ≠ backtickChar)
      if content.isEmpty then backtickAux f r
      else
        match r.drop content.length with
        | c2 :: r2 =>
          if c2 = backtickChar then String.mk content :: backtickAux f r2
          else backtickAux f r
        | [] => backtickAux f r
    else backtickAux f r

/-- All backtick-quoted spans of a string, in order of appearance. -/
def backtickSpans (s : String) : List String := backtickAux s.data.length s.data

/-- Greedy extension step for `(?:[\.\w-]+/)+[\.\w-]+`: starting after an
initial segment of accumulated length `acc`, repeatedly consume a slash
followed by a non-empty `fileChar` segment.  Returns the total matched
length and the remaining characters. -/
def pathExtend : Nat → Nat → List Char → Nat × List Char
  | 0, acc, r => (acc, r)
  | f + 1, acc, r =>
    match r with
    | '/' :: r2 =>
      let seg := r2.takeWhile fileChar
      if seg.isEmpty then (acc, r)
      else pathExtend f (acc + 1 + seg.length) (r2.drop seg.length)
    | _ => (acc, r)

/-- `re.findall(r'(?:[\.\w-]+/)+[\.\w-]+', s)` with start positions:
slash-delimited path-like tokens (at least two segments). -/
def pathLikeAux : Nat → Nat → List Char → List (Nat × String)
  | 0, _, _ => []
  | _, _, [] => []
  | f + 1, pos, c :: r =>
    let seg := (c :: r).takeWhile fileChar
    if seg.isEmpty then pathLikeAux f (pos + 1) r
    else
      let (len, rest) := pathExtend (c :: r).length seg.length ((c :: r).drop seg.length)
      if len = seg.length then pathLikeAux f (pos + 1) r
      else (pos, String.mk ((c :: r).take len)) :: pathLikeAux f (pos + len) rest

/-- Path-like fallback matches of a string, with start positions. -/
def pathLikeAll (s : String) : List (Nat × String) := pathLikeAux s.data.length 0 s.data

/-- The extension alternation of the bare-filename fallback regex, in
source order. -/
def extsList : List (List Char) :=
  ["py", "toml", "yml", "yaml", "ini", "cfg", "env", "json", "md", "txt",
   "sh", "example", "lock", "js", "ts", "html", "css", "ruff", "rc",
   "coveragerc"].map String.data

/-- Word-boundary test after an extension: the next character must not be
a word character (end of input counts as a boundary). -/
def boundaryAfter (rest : List Char) : Bool :=
  match rest with
  | [] => true
  | c :: _ => !(pyWordChar c)

/-- Try the extension alternatives left to right (case-insensitively),
each followed by a `\b` check; return the matched characters as written
and the remainder. -/
def tryExts : List (List Char) → List Char → Option (List Char × List Char)
  | [], _ => none
  | e :: es, l =>
    let m := l.take e.length
    if m.length = e.length && m.map Char.toLower == e && boundaryAfter (l.drop e.length) then
      some (m, l.drop e.length)
    else tryExts es l

/-- Backtracking over the greedy character class of
`[\w.-]+\.(ext|...)\b`: try class length `k`, `k-1`, ... `1`; for each,
the next character must be a literal dot and the tail must satisfy the
extension alternation. -/
def fnTryLen (l : List Char) : Nat → Option (List Char × List Char)
  | 0 => none
  | k + 1 =>
    match l.drop (k + 1) with
    | '.' :: after =>
      match tryExts extsList after with
      | some (m, rest) => some (l.take (k + 1) ++ '.' :: m, rest)
      | none => fnTryLen l k
    | _ => fnTryLen l k

/-- `re.findall` for the bare-filename fallback regex
`\b[\w.-]+\.(?:py|toml|...)\b` (IGNORECASE), with start positions.
The boolean tracks whether the previous character was a word character
(for the leading `\b`). -/
def filenameLikeAux : Nat → Nat → Bool → List Char → List (Nat × String)
  | 0, _, _, _ => []
  | _, _, _, [] => []
  | f + 1, pos, pw, c :: r =>
    if fileChar c && pw ≠ pyWordChar c then
      let run := (c :: r).takeWhile fileChar
      match fnTryLen (c :: r) run.length with
      | some (m, rest) =>
        (pos, String.mk m) :: filenameLikeAux f (pos + m.length) true rest
      | none => filenameLikeAux f (pos + 1) (pyWordChar c) r
    else filenameLikeAux f (pos + 1) (pyWordChar c) r

/-- Bare-filename fallback matches of a string, with start positions. -/
def filenameLikeAll (s : String) : List (Nat × String) :=
  filenameLikeAux s.data.length 0 false s.data

/-! ## `parse_task_items` (`spec_templates.py`) -/

/-- One parsed task line (the dict produced by `parse_task_items`). -/
structure TaskItem where
  id : String
  description : String
  file_path : String
  language : String
deriving DecidableEq, Repr

/-- The optional `(?:\[P\]\s+)?(.+)$` tail of the task-line regex, with
Python backtracking semantics, applied after the `\s+` separator. -/
def tryPGroup (after : List Char) : Option (List Char) :=
  match after with
  | '[' :: 'P' :: ']' :: rest2 =>
    let w2 := rest2.takeWhile pySpace
    if w2.isEmpty then none
    else
      let d := rest2.drop w2.length
      if !d.isEmpty then some d
      else if 2 ≤ w2.length then some (rest2.drop (w2.length - 1))
      else none
  | _ => none

/-- `\s+(?:\[P\]\s+)?(.+)$`: the description group of the task-line
regex, including the Python backtracking behaviour when the line ends in
whitespace. -/
def matchDesc (r : List Char) : Option (List Char) :=
  let w := r.takeWhile pySpace
  if w.isEmpty then none
  else
    let after := r.drop w.length
    match tryPGroup after with
    | some d => some d
    | none =>
      if !after.isEmpty then some after
      else if 2 ≤ w.length then some (r.drop (w.length - 1))
      else none

/-- `re.match(r"^\s*-\s*\[[ x]\]\s*(T\d+)\s+(?:\[P\]\s+)?(.+)$", line)`:
on success returns the task id (group 1) and the raw description
(group 2, not yet stripped). -/
def matchTaskLine (line : String) : Option (String × String) :=
  match line.data.dropWhile pySpace with
  | '-' :: r1 =>
    match r1.dropWhile pySpace with
    | '[' :: b :: ']' :: r3 =>
      if b = ' ' || b = 'x' then
        match r3.dropWhile pySpace with
        | 'T' :: r5 =>
          let ds := r5.takeWhile Char.isDigit
          if ds.isEmpty then none
          else
            match matchDesc (r5.drop ds.length) with
            | some d => some (String.mk ('T' :: ds), String.mk d)
            | none => none
        | _ => none
      else none
    | _ => none
  | _ => none

/-- The file filter of `parse_task_items`: the candidate must not end in
a slash and its final path component must contain a dot. -/
def fileFilt (item : String) : Bool :=
  !(strEnds item "/") && (pyStrName item).data.contains '.'

/-- Backtick candidates surviving the file filter. -/
def backtickFileItems (d : String) : List String :=
  (backtickSpans d).filter fileFilt

/-- Fallback candidates: path-like matches followed by bare-filename
matches (the order of `path_like + filename_like` in the source),
filtered the same way. -/
def fallbackItems (d : String) : List String :=
  ((pathLikeAll d).map Prod.snd ++ (filenameLikeAll d).map Prod.snd).filter fileFilt

/-- The candidate list the parser actually selects from. -/
def fileCandidates (d : String) : List String :=
  let b := backtickFileItems d
  if b.isEmpty then fallbackItems d else b

/-- Parse a single line of the task list (one loop iteration of
`parse_task_items`). -/
def parseTaskLine (line : String) : Option TaskItem :=
  match matchTaskLine line with
  | none => none
  | some (tid, rawDesc) =>
    let d := pyStrip rawDesc
    match (fileCandidates d).getLast? with
    | none => none
    | some primary =>
      some ⟨tid, d, pyStrip primary, inferLanguage (pyStrip primary)⟩

/-- `parse_task_items(tasks_content)`. -/
def parse_task_items (tasksContent : String) : List TaskItem :=
  (splitLines tasksContent).filterMap parseTaskLine

/-- The spec's reading of "the last matching candidate on the line":
among the union of the two fallback heuristics (after the file filter),
the candidate whose match starts last on the line. -/
def lastCandidateByLinePos (d : String) : Option String :=
  (((pathLikeAll d ++ filenameLikeAll d).filter (fun pr => fileFilt pr.2)).foldl
    (fun acc pr =>
      match acc with
      | none => some pr
      | some q => if q.1 ≤ pr.1 then some pr else some q)
    none).map Prod.snd

/-! ## `_extract_code_blocks` (`spec_workflow.py`)

The while loop of `ExecuteImplementationExecutor._extract_code_blocks`
is a line-driven state machine: outside a fence it remembers the
previous raw line (for the `File:` annotation check), inside a fence it
accumulates body lines until a line whose stripped form starts with
three backticks. -/

/-- One extracted block (the dict with `language`, `filename`, `code`). -/
structure CodeBlock where
  language : String
  filename : Option String
  code : String
deriving DecidableEq, Repr

/-- A line opens or closes a fence when its stripped form starts with
three backticks. -/
def isFence (l : String) : Bool := strLeads (pyStrip l) "```"

/-- The declared language of a fence line: `line.strip()[3:].strip()`. -/
def fenceLang (l : String) : String := pyStrip ⟨(pyStrip l).data.drop 3⟩

/-- Characters after the first colon: `s.split(':', 1)[1]`. -/
def afterColon (s : String) : String :=
  ⟨(s.data.dropWhile (fun c => c ≠ ':')).drop 1⟩

/-- The `File:` annotation read from the line immediately before a
fence: the stripped previous line must start with the exact markers
`**File**:` or `File:`; the value is the stripped text after the first
colon.  `none` when there is no previous line. -/
def fileAnnOf (prev : Option String) : Option String :=
  match prev with
  | none => none
  | some p =>
    let ps := pyStrip p
    if strLeads ps "**File**:" || strLeads ps "File:" then
      some (pyStrip (afterColon ps))
    else none

/-- Extractor state: scanning (with the previous raw line, if any) or
inside an open fence (declared language, annotation, accumulated body
lines). -/
inductive ExtState where
  | scanning (prev : Option String)
  | inBlock (language : String) (filename : Option String) (acc : List String)
deriving DecidableEq, Repr

/-- One line of the extraction loop. -/
def extractStep (st : ExtState) (l : String) : List CodeBlock × ExtState :=
  match st with
  | .scanning prev =>
    if isFence l then ([], .inBlock (fenceLang l) (fileAnnOf prev) [])
    else ([], .scanning (some l))
  | .inBlock la fn acc =>
    if isFence l then ([⟨la, fn, joinNl acc⟩], .scanning (some l))
    else ([], .inBlock la fn (acc ++ [l]))

/-- Run the extraction loop over the remaining lines; a fence still open
at end of input emits its block with the accumulated body. -/
def extractLoop (out : List CodeBlock) (st : ExtState) : List String → List CodeBlock
  | [] =>
    match st with
    | .scanning _ => out
    | .inBlock la fn acc => out ++ [⟨la, fn, joinNl acc⟩]
  | l :: ls =>
    let (bs, st') := extractStep st l
    extractLoop (out ++ bs) st' ls

/-- `_extract_code_blocks(markdown_content)`. -/
def extractBlocks (markdownContent : String) : List CodeBlock :=
  extractLoop [] (.scanning none) (splitLines markdownContent)

/-! ## `run_implementation` (`spec_workflow.py`) -/

/-- Accumulated effect of the per-item implementation loop: log entries
(`all_implementations`), file writes performed, and recorded generated
file paths. -/
structure ItemResult where
  entries : List String
  writes : List (PyPath × String)
  generated : List PyPath
deriving DecidableEq, Repr

/-- The log entry appended when an item's generation call raises. -/
def errEntry (it : TaskItem) (e : String) : String :=
  "## " ++ it.id ++ ": " ++ it.description ++ "\n\n**ERROR**: " ++ e

/-- The log entry appended when an item's generation call succeeds. -/
def okEntry (it : TaskItem) (impl : String) : String :=
  "## " ++ it.id ++ ": " ++ it.description ++ "\n\n" ++ impl

/-- Where a task item's code is saved: `outputs_dir / file_path.parent`
when the declared path has a parent, else `outputs_dir / "src"`, then
joined with the declared path's final name. -/
def savedFilePath (outputsDir : PyPath) (fp : String) : PyPath :=
  let p := mkPath fp
  let outPath :=
    if pyParent p ≠ mkPath "." then pathJoin outputsDir (pyParent p)
    else joinName outputsDir "src"
  joinName outPath (pyNameOfPath p)

/-- One iteration of the implementation loop for one task item, with the
collaborator modelled as a fallible oracle. -/
def implementItem (gen : TaskItem → Except String String) (outputsDir : PyPath)
    (it : TaskItem) : ItemResult :=
  match gen it with
  | .error e => ⟨[errEntry it e], [], []⟩
  | .ok impl =>
    match extractBlocks impl with
    | [] => ⟨[okEntry it impl], [], []⟩
    | b :: _ =>
      let sp := savedFilePath outputsDir it.file_path
      ⟨[okEntry it impl], [(sp, b.code)], [sp]⟩

/-- Concatenate the effects of two loop segments. -/
def combineRes (a b : ItemResult) : ItemResult :=
  ⟨a.entries ++ b.entries, a.writes ++ b.writes, a.generated ++ b.generated⟩

/-- The sequential implementation loop over a list of task items. -/
def runItems (gen : TaskItem → Except String String) (outputsDir : PyPath) :
    List TaskItem → ItemResult
  | [] => ⟨[], [], []⟩
  | it :: its => combineRes (implementItem gen outputsDir it) (runItems gen outputsDir its)

/-! ## The workflow pipeline (`spec_workflow.py`)

The executors communicate through typed messages; the
`agent_framework` event loop only dispatches them in the fixed order
the workflow edges allow, so the run is modelled as a direct
composition of the phase handlers.  The collaborator is an oracle over
structured prompts (prompt template bodies are out of scope per the
spec); a human approval decision is a boolean supplied at the single
suspension point. -/

/-- `ContextData`. -/
structure ContextData where
  constitution : String
  spec : String
  base_dir : PyPath
  tech_stack : String
deriving DecidableEq, Repr

/-- `PlanData`. -/
structure PlanData where
  plan : String
  tech_stack : String
  context : ContextData
deriving DecidableEq, Repr

/-- `TasksData`. -/
structure TasksData where
  tasks : String
  task_count : Nat
  plan : String
  context : ContextData
deriving DecidableEq, Repr

/-- `ApprovalRequest`. -/
structure ApprovalRequest where
  message : String
  tasks_preview : String
  task_count : Nat
deriving DecidableEq, Repr

/-- `ImplementationData`. -/
structure ImplementationData where
  implementation : String
  generated_files : List String
  file_count : Nat
deriving DecidableEq, Repr

/-- The prompts built from the templates in `spec_templates.py`,
abstracted to their payloads (template bodies are external). -/
inductive Prompt where
  | planP (constitution spec techStack : String)
  | tasksP (constitution spec plan : String)
  | implP (constitution spec plan tasks : String) (item : TaskItem)
deriving DecidableEq, Repr

/-- Exceptions the pipeline can surface: missing mandatory documents
(`FileNotFoundError` in `load`) and executor failures re-raised by the
event loop as `RuntimeError`. -/
inductive WorkflowError where
  | constitutionNotFound
  | specNotFound
  | executorFailed (executorId msg : String)
deriving DecidableEq, Repr

/-- The artifact files visible in the base directory at the start of the
run (`None` = the file does not exist). -/
structure Dir where
  constitution : Option String
  spec : Option String
  plan : Option String
  tasks : Option String
deriving DecidableEq, Repr

/-- The message emitted by `LoadAndRouteExecutor.load` — the tagged
union the framework dispatches on. -/
inductive RouteState where
  | contextSt (cd : ContextData)
  | planSt (pd : PlanData)
  | tasksSt (td : TasksData)
deriving DecidableEq, Repr

/-- `LoadAndRouteExecutor.load`: read the two mandatory documents
(fatal if either is missing), then route on which artifact files
exist. -/
def load (basePath : PyPath) (d : Dir) (techStack : String) :
    Except WorkflowError RouteState :=
  match d.constitution with
  | none => .error .constitutionNotFound
  | some c =>
    match d.spec with
    | none => .error .specNotFound
    | some s =>
      let cd : ContextData := ⟨c, s, basePath, techStack⟩
      match d.plan, d.tasks with
      | some p, some t => .ok (.tasksSt ⟨t, taskCount t, p, cd⟩)
      | some p, none => .ok (.planSt ⟨p, techStack, cd⟩)
      | none, _ => .ok (.contextSt cd)

/-- The bounded preview in the approval request: the first 500
characters, with an explicit truncation marker when the text is
longer. -/
def buildPreview (tasks : String) : String :=
  let n := min 500 tasks.data.length
  let p : String := ⟨tasks.data.take n⟩
  if n < tasks.data.length then p ++ "\n... (truncated)" else p

/-- The approval request built by `GenerateTasksExecutor`. -/
def buildApprovalRequest (tasks : String) : ApprovalRequest :=
  let tc := taskCount tasks
  ⟨"Generated " ++ toString tc ++
     " tasks. Please review tasks.md and approve to proceed with implementation.",
   buildPreview tasks, tc⟩

/-- Everything observable about a finished (non-raising) run: the value
`run_spec_workflow` returns, its `cancelled` flag, the files written
during the run, the collaborator calls made, and the approval requests
raised. -/
structure RunOutcome where
  result : Option ImplementationData
  cancelled : Bool
  writes : List (PyPath × String)
  calls : List Prompt
  approvals : List ApprovalRequest
deriving DecidableEq, Repr

/-- `ExecuteImplementationExecutor.run_implementation` over a
`TasksData` message: parse the task list, run the per-item loop, save
the combined log, and yield the final `ImplementationData`.  Returns
the result, the file writes, and the collaborator calls made. -/
def runImplementation (gen : Prompt → Except String String) (basePath : PyPath)
    (td : TasksData) : ImplementationData × List (PyPath × String) × List Prompt :=
  let outputsDir := joinName basePath "outputs"
  let items := parse_task_items td.tasks
  let itemGen : TaskItem → Except String String := fun it =>
    gen (.implP td.context.constitution td.context.spec td.plan td.tasks it)
  let r := runItems itemGen outputsDir items
  let implementation := joinWithStr "\n\n---\n\n" r.entries
  (⟨implementation, r.generated.map pathStr, r.generated.length⟩,
   r.writes ++ [(joinName basePath "implementation.md", implementation)],
   items.map (fun it => .implP td.context.constitution td.context.spec td.plan td.tasks it))

/-- The tail of the pipeline from the point where a plan exists:
`GenerateTasksExecutor.generate_tasks`, the approval gate
(`on_approval_response`), and — on approval — the implementation
phase.  `w0`/`c0` accumulate the writes and calls of earlier phases. -/
def afterPlan (basePath : PyPath) (gen : Prompt → Except String String)
    (decision : Bool) (cd : ContextData) (plan : String)
    (w0 : List (PyPath × String)) (c0 : List Prompt) :
    Except WorkflowError RunOutcome :=
  match gen (.tasksP cd.constitution cd.spec plan) with
  | .error e => .error (.executorFailed "generate_tasks" e)
  | .ok tasks =>
    let req := buildApprovalRequest tasks
    let w1 := w0 ++ [(joinName basePath "tasks.md", tasks)]
    let c1 := c0 ++ [Prompt.tasksP cd.constitution cd.spec plan]
    if decision then
      let td : TasksData := ⟨tasks, taskCount tasks, plan, cd⟩
      let (res, w2, c2) := runImplementation gen basePath td
      .ok ⟨some res, false, w1 ++ w2, c1 ++ c2, [req]⟩
    else
      .ok ⟨none, true, w1, c1, [req]⟩

/-- `run_spec_workflow`: the whole pipeline for one run, with the
human decision for the (at most one) approval request.  A rejected
approval yields a cancelled outcome with no result; the route that
finds both artifacts never raises an approval request, so `decision`
is irrelevant there. -/
def runSpecWorkflow (basePath : PyPath) (d : Dir) (techStack : String)
    (gen : Prompt → Except String String) (decision : Bool) :
    Except WorkflowError RunOutcome :=
  match load basePath d techStack with
  | .error e => .error e
  | .ok (.contextSt cd) =>
    match gen (.planP cd.constitution cd.spec cd.tech_stack) with
    | .error e => .error (.executorFailed "generate_plan" e)
    | .ok plan =>
      afterPlan basePath gen decision cd plan
        [(joinName basePath "plan.md", plan)]
        [Prompt.planP cd.constitution cd.spec cd.tech_stack]
  | .ok (.planSt pd) => afterPlan basePath gen decision pd.context pd.plan [] []
  | .ok (.tasksSt td) =>
    let (res, w, c) := runImplementation gen basePath td
    .ok ⟨some res, false, w, c, []⟩

/-- The spec's wording for the block file annotation ("case-insensitive
key"), modelled from the spec's words for comparison with the code's
exact-case check in `fileAnnOf`. -/
def specCaseInsensitiveAnn (l : String) : Bool :=
  strLeads (lowerStr (pyStrip l)) "**file**:" || strLeads (lowerStr (pyStrip l)) "file:"

/-! ## Helper lemmas -/

theorem splitOnChar_ne_nil (sep : Char) (l : List Char) : splitOnChar sep l ≠ [] := by
  cases l with
  | nil => simp [splitOnChar]
  | cons c r =>
    simp only [splitOnChar]
    rcases h : splitOnChar sep r with _ | ⟨h0, t0⟩
    · simp
    · by_cases hc : c = sep <;> simp [hc]

theorem splitOnChar_pieces_no_sep (sep : Char) :
    ∀ (l : List Char) (p : List Char), p ∈ splitOnChar sep l → sep ∉ p := by
  intro l
  induction l with
  | nil =>
    intro p hp
    have hp2 : p = [] := by simpa [splitOnChar] using hp
    subst hp2; simp
  | cons c r ih =>
    intro p hp
    rcases hs : splitOnChar sep r with _ | ⟨h0, t0⟩
    · exact absurd hs (splitOnChar_ne_nil sep r)
    · simp only [splitOnChar, hs] at hp
      by_cases hcs : c = sep
      · rw [if_pos hcs] at hp
        rcases List.mem_cons.mp hp with hp | hp
        · subst hp; simp
        · exact ih p (by rw [hs]; exact hp)
      · rw [if_neg hcs] at hp
        rcases List.mem_cons.mp hp with hp | hp
        · subst hp
          intro hmem
          rcases List.mem_cons.mp hmem with hmem | hmem
          · exact hcs hmem.symm
          · exact ih h0 (by rw [hs]; exact List.mem_cons_self h0 t0) hmem
        · exact ih p (by rw [hs]; exact List.mem_cons_of_mem h0 hp)

theorem splitOnChar_of_no_sep (sep : Char) :
    ∀ (l : List Char), sep ∉ l → splitOnChar sep l = [l] := by
  intro l
  induction l with
  | nil => intro _; rfl
  | cons c r ih =>
    intro h
    have hc : ¬ c = sep := by
      intro he
      exact h (by rw [← he]; exact List.mem_cons_self c r)
    have hr : sep ∉ r := fun hm => h (List.mem_cons_of_mem c hm)
    simp [splitOnChar, ih hr, hc]

theorem mkPath_part_singleton (s : String) :
    ∀ x ∈ (mkPath s).parts, mkPath x = ⟨false, [x]⟩ := by
  intro x hx
  simp only [mkPath, List.mem_filter, List.mem_map] at hx
  obtain ⟨⟨p, hp, hpx⟩, hcond⟩ := hx
  have hnosep : '/' ∉ p := splitOnChar_pieces_no_sep '/' s.data p hp
  rw [Bool.and_eq_true, decide_eq_true_eq, decide_eq_true_eq] at hcond
  obtain ⟨hne, hnd⟩ := hcond
  subst hpx
  have habs : strLeads ⟨p⟩ "/" = false := by
    cases p with
    | nil => rfl
    | cons a q =>
      have ha : ¬ '/' = a := by
        intro he
        exact hnosep (by rw [he]; exact List.mem_cons_self a q)
      simp [strLeads, leadsWith, ha]
  simp only [mkPath, habs]
  rw [splitOnChar_of_no_sep '/' p hnosep]
  simp [hne, hnd]

theorem runItems_append (gen : TaskItem → Except String String) (od : PyPath)
    (l1 l2 : List TaskItem) :
    runItems gen od (l1 ++ l2) = combineRes (runItems gen od l1) (runItems gen od l2) := by
  induction l1 with
  | nil => simp [runItems, combineRes]
  | cons it its ih =>
    simp [runItems, ih, combineRes, List.append_assoc]

theorem extractLoop_inBlock_no_close (la : String) (fn : Option String) :
    ∀ (rest : List String) (out : List CodeBlock) (acc : List String),
    (∀ x ∈ rest, isFence x = false) →
    extractLoop out (.inBlock la fn acc) rest = out ++ [⟨la, fn, joinNl (acc ++ rest)⟩] := by
  intro rest
  induction rest with
  | nil => intro out acc _; simp [extractLoop]
  | cons l ls ih =>
    intro out acc h
    have hl : isFence l = false := h l (List.mem_cons_self l ls)
    have hls : ∀ x ∈ ls, isFence x = false := fun x hx => h x (List.mem_cons_of_mem l hx)
    simp only [extractLoop, extractStep, hl, Bool.false_eq_true, if_false, List.append_nil]
    rw [ih out (acc ++ [l]) hls]
    simp

theorem extractLoop_scanning_to_prev :
    ∀ (mid : List String) (out : List CodeBlock) (prev : Option String) (pv : String)
      (ls : List String),
    (∀ x ∈ mid, isFence x = false) → isFence pv = false →
    extractLoop out (.scanning prev) (mid ++ pv :: ls) =
      extractLoop out (.scanning (some pv)) ls := by
  intro mid
  induction mid with
  | nil =>
    intro out prev pv ls _ hpv
    simp [extractLoop, extractStep, hpv]
  | cons m ms ih =>
    intro out prev pv ls h hpv
    have hm : isFence m = false := h m (List.mem_cons_self m ms)
    have hms : ∀ x ∈ ms, isFence x = false := fun x hx => h x (List.mem_cons_of_mem m hx)
    have step : extractLoop out (.scanning prev) ((m :: ms) ++ pv :: ls) =
        extractLoop (out ++ []) (.scanning (some m)) (ms ++ pv :: ls) := by
      simp [extractLoop, extractStep, hm]
    rw [step, List.append_nil]
    exact ih out (some m) pv ls hms hpv

/-! ## Claim theorems -/

/-- C1: the router's phase decision depends only on which artifact files
exist in the base directory.  With both mandatory documents present:
plan and tasks files both present yields the `TaskList` state (and the
pipeline then raises no approval request and makes only per-item
implementation calls); only the plan file present yields the `Plan`
state; neither present yields the `Context` state — for every choice of
file contents and sizes. -/
theorem router_routes_on_artifact_existence (bp : PyPath) (c s ts : String) :
    (∀ p t, load bp ⟨some c, some s, some p, some t⟩ ts =
        .ok (.tasksSt ⟨t, taskCount t, p, ⟨c, s, bp, ts⟩⟩)) ∧
    (∀ p, load bp ⟨some c, some s, some p, none⟩ ts =
        .ok (.planSt ⟨p, ts, ⟨c, s, bp, ts⟩⟩)) ∧
    load bp ⟨some c, some s, none, none⟩ ts = .ok (.contextSt ⟨c, s, bp, ts⟩) ∧
    (∀ p t gen dec,
      runSpecWorkflow bp ⟨some c, some s, some p, some t⟩ ts gen dec =
        .ok ⟨some (runImplementation gen bp ⟨t, taskCount t, p, ⟨c, s, bp, ts⟩⟩).1,
             false,
             (runImplementation gen bp ⟨t, taskCount t, p, ⟨c, s, bp, ts⟩⟩).2.1,
             (parse_task_items t).map (fun it => .implP c s p t it),
             []⟩) :=
  ⟨fun _ _ => rfl, fun _ => rfl, rfl, fun _ _ _ _ => rfl⟩

/-- C7: when either mandatory source document is absent, the router
raises (a `FileNotFoundError` in the source), no phase state is
produced, and the whole run propagates the error. -/
theorem missing_mandatory_document_is_fatal (bp : PyPath) (d : Dir) (ts : String)
    (h : d.constitution = none ∨ d.spec = none) :
    (∃ e, load bp d ts = .error e) ∧
    ∀ gen dec, ∃ e, runSpecWorkflow bp d ts gen dec = .error e := by
  obtain ⟨dc, dsp, dp, dt⟩ := d
  rcases h with h | h
  · simp only at h
    subst h
    exact ⟨⟨.constitutionNotFound, rfl⟩, fun _ _ => ⟨.constitutionNotFound, rfl⟩⟩
  · simp only at h
    subst h
    cases dc with
    | none => exact ⟨⟨.constitutionNotFound, rfl⟩, fun _ _ => ⟨.constitutionNotFound, rfl⟩⟩
    | some c => exact ⟨⟨.specNotFound, rfl⟩, fun _ _ => ⟨.specNotFound, rfl⟩⟩

/-- C7 witness: a directory with no constitution file. -/
theorem missing_mandatory_document_is_fatal_w :
    (∃ e, load (mkPath "b") ⟨none, some "s", some "p", none⟩ "t" = .error e) ∧
    ∀ gen dec,
      ∃ e, runSpecWorkflow (mkPath "b") ⟨none, some "s", some "p", none⟩ "t" gen dec = .error e :=
  missing_mandatory_document_is_fatal (mkPath "b") ⟨none, some "s", some "p", none⟩ "t"
    (Or.inl rfl)

/-- C4: a failing collaborator call for one item contributes exactly the
`**ERROR**` log entry naming that item's id and message, and the loop's
effect on the items before and after it is unchanged — later items still
contribute their entries, writes and saved files. -/
theorem item_failure_never_aborts_loop
    (gen : TaskItem → Except String String) (od : PyPath)
    (pre post : List TaskItem) (bad : TaskItem) (e : String)
    (h : gen bad = .error e) :
    runItems gen od (pre ++ bad :: post) =
      ⟨(runItems gen od pre).entries ++ errEntry bad e :: (runItems gen od post).entries,
       (runItems gen od pre).writes ++ (runItems gen od post).writes,
       (runItems gen od pre).generated ++ (runItems gen od post).generated⟩ := by
  rw [runItems_append]
  show combineRes (runItems gen od pre)
      (combineRes (implementItem gen od bad) (runItems gen od post)) = _
  simp [implementItem, h, combineRes]

/-- C4 witness collaborator: fails exactly on item T2. -/
def genW4 : TaskItem → Except String String := fun it =>
  if it.id == "T2" then .error "boom" else .ok "```py\nbody\n```"

/-- C4 witness: with items T1, T2 (failing), T3, the loop result splits
around the T2 error entry. -/
theorem item_failure_never_aborts_loop_w :
    runItems genW4 (mkPath "o") ([⟨"T1", "d1", "a.py", "python"⟩] ++
        ⟨"T2", "d2", "b.py", "python"⟩ :: [⟨"T3", "d3", "c.py", "python"⟩]) =
      ⟨(runItems genW4 (mkPath "o") [⟨"T1", "d1", "a.py", "python"⟩]).entries ++
         errEntry ⟨"T2", "d2", "b.py", "python"⟩ "boom" ::
           (runItems genW4 (mkPath "o") [⟨"T3", "d3", "c.py", "python"⟩]).entries,
       (runItems genW4 (mkPath "o") [⟨"T1", "d1", "a.py", "python"⟩]).writes ++
         (runItems genW4 (mkPath "o") [⟨"T3", "d3", "c.py", "python"⟩]).writes,
       (runItems genW4 (mkPath "o") [⟨"T1", "d1", "a.py", "python"⟩]).generated ++
         (runItems genW4 (mkPath "o") [⟨"T3", "d3", "c.py", "python"⟩]).generated⟩ :=
  item_failure_never_aborts_loop genW4 (mkPath "o")
    [⟨"T1", "d1", "a.py", "python"⟩] [⟨"T3", "d3", "c.py", "python"⟩]
    ⟨"T2", "d2", "b.py", "python"⟩ "boom" rfl

/-- C10: when a per-item response contains several code blocks, exactly
one file write happens for the item and it persists the first block's
body; the later blocks survive only inside the raw log entry (which
embeds the whole response text). -/
theorem only_first_block_written
    (gen : TaskItem → Except String String) (od : PyPath) (it : TaskItem)
    (r : String) (b : CodeBlock) (bs : List CodeBlock)
    (h1 : gen it = .ok r) (h2 : extractBlocks r = b :: bs) :
    implementItem gen od it =
      ⟨[okEntry it r], [(savedFilePath od it.file_path, b.code)],
       [savedFilePath od it.file_path]⟩ ∧
    okEntry it r = "## " ++ it.id ++ ": " ++ it.description ++ "\n\n" ++ r := by
  constructor
  · simp [implementItem, h1, h2]
  · rfl

/-- C10 witness: a response with two fenced blocks; only the first body
is written. -/
theorem only_first_block_written_w :
    implementItem (fun _ => .ok "```py\na\n```\n```py\nb\n```") (mkPath "o/outputs")
        ⟨"T1", "d", "x.py", "python"⟩ =
      ⟨[okEntry ⟨"T1", "d", "x.py", "python"⟩ "```py\na\n```\n```py\nb\n```"],
       [(savedFilePath (mkPath "o/outputs") "x.py", "a")],
       [savedFilePath (mkPath "o/outputs") "x.py"]⟩ :=
  (only_first_block_written (fun _ => .ok "```py\na\n```\n```py\nb\n```")
    (mkPath "o/outputs") ⟨"T1", "d", "x.py", "python"⟩ "```py\na\n```\n```py\nb\n```"
    ⟨"py", none, "a"⟩ [⟨"py", none, "b"⟩] rfl rfl).1

/-- C5 counterexample: an opening fence with no closing fence and a
following line yields the remaining text as the body, not an empty
body. -/
theorem unterminated_fence_body_not_empty :
    extractBlocks "```python\nx = 1" = [⟨"python", none, "x = 1"⟩] ∧
    ("x = 1" : String) ≠ "" := by
  exact ⟨rfl, by decide⟩

/-- C5 (amended): an opening fence with no matching closing fence before
end of input yields one extra block whose body is exactly the remaining
lines (so the body is empty precisely when nothing follows the fence),
and the extractor is a total function — it cannot raise. -/
theorem unterminated_fence_yields_remaining_lines
    (out : List CodeBlock) (prev : Option String) (fl : String) (rest : List String)
    (hf : isFence fl = true) (hr : ∀ x ∈ rest, isFence x = false) :
    extractLoop out (.scanning prev) (fl :: rest) =
      out ++ [⟨fenceLang fl, fileAnnOf prev, joinNl rest⟩] ∧
    (rest = [] →
      extractLoop out (.scanning prev) (fl :: rest) =
        out ++ [⟨fenceLang fl, fileAnnOf prev, ""⟩]) := by
  have hmain : extractLoop out (.scanning prev) (fl :: rest) =
      out ++ [⟨fenceLang fl, fileAnnOf prev, joinNl rest⟩] := by
    have step : extractLoop out (.scanning prev) (fl :: rest) =
        extractLoop (out ++ []) (.inBlock (fenceLang fl) (fileAnnOf prev) []) rest := by
      simp [extractLoop, extractStep, hf]
    rw [step, List.append_nil, extractLoop_inBlock_no_close (fenceLang fl) (fileAnnOf prev)
      rest out [] hr]
    simp
  refine ⟨hmain, fun he => ?_⟩
  subst he
  exact hmain

/-- C5 witness: the unterminated fence of the counterexample input,
through the loop lemma. -/
theorem unterminated_fence_yields_remaining_lines_w :
    extractLoop [] (.scanning none) ("```python" :: ["x = 1"]) =
      [] ++ [⟨fenceLang "```python", fileAnnOf none, joinNl ["x = 1"]⟩] :=
  (unterminated_fence_yields_remaining_lines [] none "```python" ["x = 1"] rfl
    (by decide)).1

/-- C6 counterexample: a preceding line whose `File:` key differs only
in case matches the spec's case-insensitive notion but is ignored by the
extractor — the block's filename stays unset. -/
theorem lowercase_file_marker_not_recognized :
    specCaseInsensitiveAnn "file: a.py" = true ∧
    extractBlocks "file: a.py\n```python\nx\n```" = [⟨"python", none, "x"⟩] := by
  exact ⟨rfl, rfl⟩

/-- C6 (amended): a block's file association is read from the line
immediately preceding the opening fence and from nothing deeper — any
earlier non-fence lines are irrelevant — and it is set iff the stripped
preceding line starts with the exact, case-sensitive markers
`**File**:` or `File:` (value: stripped text after the first colon);
with no preceding line the filename is unset while the declared kind is
still the trimmed fence tag. -/
theorem file_annotation_exact_marker_immediate_line_only
    (out : List CodeBlock) (prev : Option String) (mid : List String)
    (pv fl : String) (rest : List String)
    (hmid : ∀ x ∈ mid, isFence x = false) (hpv : isFence pv = false)
    (hfl : isFence fl = true) :
    extractLoop out (.scanning prev) (mid ++ pv :: fl :: rest) =
      extractLoop out (.inBlock (fenceLang fl) (fileAnnOf (some pv)) []) rest ∧
    (∀ p, fileAnnOf (some p) =
      if strLeads (pyStrip p) "**File**:" || strLeads (pyStrip p) "File:" then
        some (pyStrip (afterColon (pyStrip p)))
      else none) ∧
    fileAnnOf none = none ∧
    (∀ o2, extractLoop o2 (.scanning none) (fl :: rest) =
      extractLoop o2 (.inBlock (fenceLang fl) none []) rest) := by
  refine ⟨?_, fun p => rfl, rfl, fun o2 => ?_⟩
  · rw [extractLoop_scanning_to_prev mid out prev pv (fl :: rest) hmid hpv]
    have step : extractLoop out (.scanning (some pv)) (fl :: rest) =
        extractLoop (out ++ []) (.inBlock (fenceLang fl) (fileAnnOf (some pv)) []) rest := by
      simp [extractLoop, extractStep, hfl]
    rw [step, List.append_nil]
  · have step : extractLoop o2 (.scanning none) (fl :: rest) =
        extractLoop (o2 ++ []) (.inBlock (fenceLang fl) (fileAnnOf none) []) rest := by
      simp [extractLoop, extractStep, hfl]
    rw [step, List.append_nil]
    rfl

/-- C6 witness: a fence preceded by a `File:` line after unrelated
earlier lines. -/
theorem file_annotation_exact_marker_immediate_line_only_w :
    extractLoop [] (.scanning none) (["a"] ++ "File: f.py" :: "```py" :: ["x", "```"]) =
      extractLoop [] (.inBlock (fenceLang "```py") (fileAnnOf (some "File: f.py")) [])
        ["x", "```"] :=
  (file_annotation_exact_marker_immediate_line_only [] none ["a"] "File: f.py" "```py"
    ["x", "```"] (by decide) rfl rfl).1

/-- C3 counterexample: in the fallback case the parser keeps the last
element of the concatenated candidate list (path-like matches first,
then bare filenames), which is not the candidate appearing last on the
line; and the fallback heuristics run over the still-backtick-quoted
description, so a quoted span rejected by the file filter can still
contribute a candidate. -/
theorem fallback_filepath_diverges_from_line_order :
    parse_task_items "- [ ] T001 update config.py and src/app.exe" =
      [⟨"T001", "update config.py and src/app.exe", "config.py", "python"⟩] ∧
    lastCandidateByLinePos "update config.py and src/app.exe" = some "src/app.exe" ∧
    ("config.py" : String) ≠ "src/app.exe" ∧
    backtickFileItems "work in `a/b.py/`" = [] ∧
    parse_task_items "- [ ] T004 work in `a/b.py/`" =
      [⟨"T004", "work in `a/b.py/`", "b.py", "python"⟩] := by
  exact ⟨rfl, rfl, by decide, rfl, rfl⟩

/-- C3 (amended): for every line matching the checkbox grammar, the
candidate list is the filtered backtick spans when any survive, else the
filtered concatenation of path-like and bare-filename matches over the
raw description; the parsed item's file path is the stripped LAST
element of that list (for backticks, the last surviving span in line
order), and a line with no surviving candidate yields no item. -/
theorem task_line_takes_last_listed_candidate
    (line tid rawDesc : String) (h : matchTaskLine line = some (tid, rawDesc)) :
    (fileCandidates (pyStrip rawDesc) = [] → parseTaskLine line = none) ∧
    (∀ p, (fileCandidates (pyStrip rawDesc)).getLast? = some p →
      parseTaskLine line =
        some ⟨tid, pyStrip rawDesc, pyStrip p, inferLanguage (pyStrip p)⟩) := by
  constructor
  · intro h0
    simp [parseTaskLine, h, h0]
  · intro p hp
    simp [parseTaskLine, h, hp]

/-- C3 witness: two surviving backtick spans; the last one in line order
wins. -/
theorem task_line_takes_last_listed_candidate_w :
    parseTaskLine "- [ ] T001 add `x.py` then `src/a.py`" =
      some ⟨"T001", "add `x.py` then `src/a.py`", "src/a.py", "python"⟩ :=
  (task_line_takes_last_listed_candidate "- [ ] T001 add `x.py` then `src/a.py`"
    "T001" "add `x.py` then `src/a.py`" rfl).2 "src/a.py" rfl

/-- C2 counterexample: a rejected approval makes `run_spec_workflow`
return no result at all (`None` in the source) — there is no returned
result object carrying a `cancelled` flag or a `fileCount` field. -/
theorem rejected_run_returns_no_result_object :
    runSpecWorkflow (mkPath "base") ⟨some "c", some "s", none, none⟩ "Python 3.10+"
        (fun _ => .ok "out") false =
      .ok ⟨none, true,
           [(⟨false, ["base", "plan.md"]⟩, "out"), (⟨false, ["base", "tasks.md"]⟩, "out")],
           [.planP "c" "s" "Python 3.10+", .tasksP "c" "s" "out"],
           [⟨"Generated 0 tasks. Please review tasks.md and approve to proceed " ++
               "with implementation.", "out", 0⟩]⟩ := by
  rfl

/-- C2 (amended): for every run reaching the approval gate, a `false`
decision terminates the pipeline with the cancelled flag set and no
implementation result (the source returns `None`, so zero files are
generated), the implementation phase's collaborator is never invoked,
and the artifacts written so far (plan and task list) remain on disk —
both for the full-pipeline route and for the plan-resume route. -/
theorem rejection_cancels_without_implementation
    (bp : PyPath) (c s ts pl tk : String) (gen : Prompt → Except String String)
    (h1 : gen (.planP c s ts) = .ok pl) (h2 : gen (.tasksP c s pl) = .ok tk) :
    runSpecWorkflow bp ⟨some c, some s, none, none⟩ ts gen false =
      .ok ⟨none, true,
           [(joinName bp "plan.md", pl), (joinName bp "tasks.md", tk)],
           [.planP c s ts, .tasksP c s pl], [buildApprovalRequest tk]⟩ ∧
    (∀ c2 s2 p2 t2 it o,
      runSpecWorkflow bp ⟨some c, some s, none, none⟩ ts gen false = .ok o →
      Prompt.implP c2 s2 p2 t2 it ∉ o.calls) ∧
    (∀ p0 tk0, gen (.tasksP c s p0) = .ok tk0 →
      runSpecWorkflow bp ⟨some c, some s, some p0, none⟩ ts gen false =
        .ok ⟨none, true, [(joinName bp "tasks.md", tk0)],
             [.tasksP c s p0], [buildApprovalRequest tk0]⟩) := by
  have hrun : runSpecWorkflow bp ⟨some c, some s, none, none⟩ ts gen false =
      .ok ⟨none, true,
           [(joinName bp "plan.md", pl), (joinName bp "tasks.md", tk)],
           [.planP c s ts, .tasksP c s pl], [buildApprovalRequest tk]⟩ := by
    simp [runSpecWorkflow, load, afterPlan, h1, h2]
  refine ⟨hrun, ?_, ?_⟩
  · intro c2 s2 p2 t2 it o ho
    rw [hrun] at ho
    have ho2 := Except.ok.inj ho
    subst ho2
    simp
  · intro p0 tk0 hp0
    simp [runSpecWorkflow, load, afterPlan, hp0]

/-- C2 witness: a concrete rejected full-pipeline run, through the
amended theorem. -/
theorem rejection_cancels_without_implementation_w :
    runSpecWorkflow (mkPath "b") ⟨some "c", some "s", none, none⟩ "t"
        (fun _ => .ok "g") false =
      .ok ⟨none, true,
           [(joinName (mkPath "b") "plan.md", "g"), (joinName (mkPath "b") "tasks.md", "g")],
           [.planP "c" "s" "t", .tasksP "c" "s" "g"], [buildApprovalRequest "g"]⟩ :=
  (rejection_cancels_without_implementation (mkPath "b") "c" "s" "t" "g" "g"
    (fun _ => .ok "g") rfl rfl).1

/-- C9 counterexample: a task item whose declared path is absolute is
saved outside the outputs directory (`pathlib` discards the left operand
when joining with an absolute path). -/
theorem absolute_declared_path_escapes_outputs :
    savedFilePath (mkPath "proj/outputs") "/etc/x.py" = ⟨true, ["etc", "x.py"]⟩ ∧
    pathStarts (savedFilePath (mkPath "proj/outputs") "/etc/x.py")
      (mkPath "proj/outputs") = false ∧
    implementItem (fun _ => .ok "```python\ncode\n```") (mkPath "proj/outputs")
        ⟨"T001", "d", "/etc/x.py", "python"⟩ =
      ⟨["## T001: d\n\n```python\ncode\n```"], [(⟨true, ["etc", "x.py"]⟩, "code")],
       [⟨true, ["etc", "x.py"]⟩]⟩ := by
  exact ⟨rfl, rfl, rfl⟩

/-- Unfolded form of `savedFilePath` (the `let` bindings zeta-reduce). -/
theorem savedFilePath_eq (od : PyPath) (fp : String) :
    savedFilePath od fp =
      joinName
        (if pyParent (mkPath fp) ≠ mkPath "." then pathJoin od (pyParent (mkPath fp))
         else joinName od "src")
        (pyNameOfPath (mkPath fp)) := rfl

/-- C9 (amended): for every task item whose declared path is relative,
the saved file stays inside the outputs directory: with a parent
directory the file lands at `outputs/<parent>/<name>`, a bare filename
is redirected to `outputs/src/<name>`, and the empty relative path
degenerates to the `src` directory itself. -/
theorem relative_paths_stay_under_outputs (od : PyPath) (fp : String)
    (h : (mkPath fp).isAbs = false) :
    pathStarts (savedFilePath od fp) od = true ∧
    (∀ a b t, (mkPath fp).parts = a :: b :: t →
      savedFilePath od fp = ⟨od.isAbs, od.parts ++ (mkPath fp).parts⟩) ∧
    (∀ x, (mkPath fp).parts = [x] →
      savedFilePath od fp = ⟨od.isAbs, od.parts ++ ["src", x]⟩) ∧
    ((mkPath fp).parts = [] →
      savedFilePath od fp = ⟨od.isAbs, od.parts ++ ["src"]⟩) := by
  have h3 : mkPath "." = (⟨false, []⟩ : PyPath) := rfl
  have hsrc : mkPath "src" = (⟨false, ["src"]⟩ : PyPath) := rfl
  have hemp : mkPath "" = (⟨false, []⟩ : PyPath) := rfl
  have hps : ∀ tail, pathStarts ⟨od.isAbs, od.parts ++ tail⟩ od = true := by
    intro tail
    simp [pathStarts, List.take_left]
  have hnil : (mkPath fp).parts = [] →
      savedFilePath od fp = ⟨od.isAbs, od.parts ++ ["src"]⟩ := by
    intro hp
    have hmk : mkPath fp = ⟨false, []⟩ := by
      calc mkPath fp = ⟨(mkPath fp).isAbs, (mkPath fp).parts⟩ := rfl
        _ = ⟨false, []⟩ := by rw [h, hp]
    rw [savedFilePath_eq, hmk]
    have hcond : ¬ (pyParent (⟨false, []⟩ : PyPath) ≠ mkPath ".") := fun hne => hne rfl
    rw [if_neg hcond]
    simp [joinName, pathJoin, pyNameOfPath, hsrc, hemp]
  have hone : ∀ x, (mkPath fp).parts = [x] →
      savedFilePath od fp = ⟨od.isAbs, od.parts ++ ["src", x]⟩ := by
    intro x hp
    have hmk : mkPath fp = ⟨false, [x]⟩ := by
      calc mkPath fp = ⟨(mkPath fp).isAbs, (mkPath fp).parts⟩ := rfl
        _ = ⟨false, [x]⟩ := by rw [h, hp]
    have hx : mkPath x = ⟨false, [x]⟩ :=
      mkPath_part_singleton fp x (by rw [hp]; exact List.mem_cons_self x [])
    rw [savedFilePath_eq, hmk]
    have hcond : ¬ (pyParent (⟨false, [x]⟩ : PyPath) ≠ mkPath ".") := fun hne => hne rfl
    rw [if_neg hcond]
    simp [joinName, pathJoin, pyNameOfPath, hsrc, hx]
  have htwo : ∀ a b t, (mkPath fp).parts = a :: b :: t →
      savedFilePath od fp = ⟨od.isAbs, od.parts ++ (mkPath fp).parts⟩ := by
    intro a b t hp
    have hmk : mkPath fp = ⟨false, a :: b :: t⟩ := by
      calc mkPath fp = ⟨(mkPath fp).isAbs, (mkPath fp).parts⟩ := rfl
        _ = ⟨false, a :: b :: t⟩ := by rw [h, hp]
    have hlast : pyNameOfPath (⟨false, a :: b :: t⟩ : PyPath) =
        (a :: b :: t).getLast (by simp) := by
      simp [pyNameOfPath, List.getLast?_eq_getLast]
    have hx : mkPath ((a :: b :: t).getLast (by simp)) =
        ⟨false, [(a :: b :: t).getLast (by simp)]⟩ :=
      mkPath_part_singleton fp _ (by rw [hp]; exact List.getLast_mem (by simp))
    have hcond : pyParent (⟨false, a :: b :: t⟩ : PyPath) ≠ mkPath "." := by
      rw [h3]
      simp [pyParent]
    rw [savedFilePath_eq, hmk, if_pos hcond, hlast]
    simp only [joinName, pathJoin, pyParent, hx]
    simp only [Bool.false_eq_true, if_false, List.append_assoc]
    rw [List.dropLast_append_getLast (by simp)]
  refine ⟨?_, htwo, hone, hnil⟩
  rcases hpp : (mkPath fp).parts with _ | ⟨a, _ | ⟨b, t⟩⟩
  · rw [hnil hpp]; exact hps _
  · rw [hone a hpp]; exact hps _
  · rw [htwo a b t hpp]; exact hps _

/-- C9 witness: a two-component relative path stays inside the outputs
directory. -/
theorem relative_paths_stay_under_outputs_w :
    pathStarts (savedFilePath (mkPath "proj/outputs") "a/b.py") (mkPath "proj/outputs") =
      true :=
  (relative_paths_stay_under_outputs (mkPath "proj/outputs") "a/b.py" rfl).1

/-- C8: the task-line grammar accepts checked boxes (`[x]`) as well as
unchecked ones, while the reported task count is the literal substring
count of `- [ ] T`; on an all-checked task list the implementation loop
therefore processes more items than the approval request's count. -/
theorem checked_tasks_parsed_but_uncounted :
    parseTaskLine "- [x] T001 Create model in `src/user.py`" =
        some ⟨"T001", "Create model in `src/user.py`", "src/user.py", "python"⟩ ∧
    parseTaskLine "- [ ] T001 Create model in `src/user.py`" =
        some ⟨"T001", "Create model in `src/user.py`", "src/user.py", "python"⟩ ∧
    (buildApprovalRequest "- [x] T001 Create model in `src/user.py`").task_count = 0 ∧
    (parse_task_items "- [x] T001 Create model in `src/user.py`").length = 1 ∧
    (buildApprovalRequest "- [x] T001 Create model in `src/user.py`").task_count <
      (parse_task_items "- [x] T001 Create model in `src/user.py`").length := by
  exact ⟨rfl, rfl, rfl, rfl, by decide⟩

end SpecGen
